import Mathlib

/-
Verification of the reconciliation loop of GitHub-Repository-Sync
(src/main.rs), as a shallow embedding in Lean.

Machine integers are modelled as Nat with explicit reduction modulo
2 ^ w where overflow could matter.  Fallible operations return Option
or Except.  Times are abstract Nat timestamps.
-/

/-- Commit identifiers are opaque strings, compared only by equality
(src/main.rs lines 36-39, 193). -/
abbrev CommitId := String

/-- src/main.rs lines 48-51: `exponential_backoff`.  The Rust code computes
`2u64.pow(attempt.min(6))` seconds, with `attempt : u32`; the u64
exponentiation is modelled with its modulus made explicit. -/
def exponential_backoff (attempt : Nat) : Nat :=
  (2 ^ (min attempt 6)) % 2 ^ 64

/-- A small JSON value model, for the body of the hosting-API response. -/
inductive Json where
  | null
  | bool (b : Bool)
  | num (n : Int)
  | str (s : String)
  | arr (elems : List Json)
  | obj (fields : List (String × Json))

/-- serde deserialization of the `GitHubCommit` struct (src/main.rs lines
36-39): it succeeds exactly on a JSON object carrying a field `sha`
whose value is a string (unknown extra fields are ignored by serde). -/
def parseGitHubCommit (j : Json) : Option String :=
  match j with
  | Json.obj fields =>
    match fields.lookup "sha" with
    | some (Json.str s) => some s
    | _ => none
  | _ => none

/-- An HTTP response as delivered to the fetcher: a status code and a body.
reqwest delivers any response that arrives, whatever its status. -/
structure HttpResponse where
  status : Nat
  body : Json

/-- src/main.rs lines 54-83: `get_latest_commit_sha`.  The argument is the
outcome of `request.send()`: `Except.error` for a network failure,
`Except.ok` with the delivered response otherwise.  The code then runs
`response.json::<GitHubCommit>()` on the body; nothing in the function
inspects `response.status`. -/
def get_latest_commit_sha (send : Except Unit HttpResponse) : Option CommitId :=
  match send with
  | Except.error _ => none
  | Except.ok resp =>
    match parseGitHubCommit resp.body with
    | some sha => some sha
    | none => none

/-- The mutable loop state of `main` (src/main.rs lines 157-159):
`last_change_time` and `backoff_attempt`. -/
structure LoopState where
  last_change_time : Nat
  backoff_attempt : Nat

/-- The environment one cycle of the loop observes: whether
`Repository::open` succeeds, the results of `get_latest_commit_sha` and
`get_local_commit_sha`, the clock value read by `SystemTime::now()` in the
divergent branch, and whether `last_change_time.elapsed()` and
`io::stdout().flush()` succeed in the no-change branch (`elapsed` fails
when the system clock has moved backwards), and whether the external
`git pull` process succeeds. -/
structure CycleInput where
  openOk : Bool
  remote : Option CommitId
  localCommit : Option CommitId
  now : Nat
  elapsedOk : Bool
  flushOk : Bool
  pullOk : Bool

/-- What one cycle produces: the state handed to the next cycle, whether
the Sync Action (`pull_latest_changes`) was invoked, how many seconds the
cycle sleeps before the next one, and whether an error was logged. -/
structure CycleOutput where
  state : LoopState
  pulled : Bool
  sleepSecs : Nat
  errorLogged : Bool

/-- One iteration of the `loop` in `main` (src/main.rs lines 162-210).
`Except.error ()` is the case in which the `?` operator propagates an
error out of `main` (lines 199 and 205). -/
def cycleStep (check_interval : Nat) (st : LoopState) (inp : CycleInput) :
    Except Unit CycleOutput :=
  if inp.openOk = false then
    -- lines 163-170: open failed; log, sleep the full interval, continue
    Except.ok ⟨st, false, check_interval, true⟩
  else
    match inp.remote with
    | none =>
      -- lines 172-180: fetch failed; log, backoff sleep, increment attempt
      Except.ok ⟨⟨st.last_change_time, st.backoff_attempt + 1⟩, false,
        exponential_backoff st.backoff_attempt, true⟩
    | some latest_remote_commit =>
      match inp.localCommit with
      | none =>
        -- lines 182-190: local read failed; log, backoff sleep, increment
        Except.ok ⟨⟨st.last_change_time, st.backoff_attempt + 1⟩, false,
          exponential_backoff st.backoff_attempt, true⟩
      | some local_commit =>
        if latest_remote_commit ≠ local_commit then
          -- lines 193-197: pull, stamp the time, reset the attempt counter;
          -- a pull failure is only logged (lines 103-107)
          Except.ok ⟨⟨inp.now, 0⟩, true, check_interval, !inp.pullOk⟩
        else if inp.elapsedOk = false then
          -- line 199: last_change_time.elapsed()? propagates
          Except.error ()
        else if inp.flushOk = false then
          -- line 205: io::stdout().flush()? propagates
          Except.error ()
        else
          -- lines 198-206: status line only; state untouched
          Except.ok ⟨st, false, check_interval, false⟩

/-- Run the loop over a scripted list of cycle environments, collecting the
outputs, or stopping at the first propagated error. -/
def runLoop (check_interval : Nat) (st : LoopState) :
    List CycleInput → Except Unit (List CycleOutput × LoopState)
  | [] => Except.ok ([], st)
  | inp :: rest =>
    match cycleStep check_interval st inp with
    | Except.error e => Except.error e
    | Except.ok out =>
      match runLoop check_interval out.state rest with
      | Except.error e => Except.error e
      | Except.ok (outs, final) => Except.ok (out :: outs, final)

/-- A cycle in which the repository opens and both identifier reads succeed,
the clock behaves, and stdout accepts the status line. -/
def okInput (r l : CommitId) (t : Nat) : CycleInput :=
  ⟨true, some r, some l, t, true, true, true⟩

/-- A cycle in which the remote fetch fails (everything before it fine). -/
def fetchFailInput : CycleInput :=
  ⟨true, none, none, 0, true, true, true⟩

/- ------------------------------------------------------------------ -/
/- Helper lemmas                                                       -/
/- ------------------------------------------------------------------ -/

lemma exponential_backoff_eq (n : Nat) : exponential_backoff n = 2 ^ min n 6 := by
  have h : 2 ^ min n 6 ≤ 2 ^ 6 :=
    Nat.pow_le_pow_right (by norm_num) (Nat.min_le_right _ _)
  unfold exponential_backoff
  exact Nat.mod_eq_of_lt (lt_of_le_of_lt h (by norm_num))

lemma exponential_backoff_eq_min (n : Nat) :
    exponential_backoff n = min (2 ^ n) 64 := by
  rw [exponential_backoff_eq]
  rcases le_or_lt n 6 with h | h
  · rw [min_eq_left h, min_eq_left]
    calc 2 ^ n ≤ 2 ^ 6 := Nat.pow_le_pow_right (by norm_num) h
    _ = 64 := by norm_num
  · rw [min_eq_right (le_of_lt h), min_eq_right]
    · norm_num
    · calc (64 : Nat) = 2 ^ 6 := by norm_num
      _ ≤ 2 ^ n := Nat.pow_le_pow_right (by norm_num) (le_of_lt h)

lemma cycleStep_okInput (ci : Nat) (st : LoopState) (r l : CommitId) (t : Nat) :
    cycleStep ci st (okInput r l t) =
      if r = l then Except.ok ⟨st, false, ci, false⟩
      else Except.ok ⟨⟨t, 0⟩, true, ci, false⟩ := by
  by_cases h : r = l <;> simp [cycleStep, okInput, h]

/- ------------------------------------------------------------------ -/
/- Claims                                                              -/
/- ------------------------------------------------------------------ -/

/-- C1: for every scripted sequence of cycles in which the remote fetch and
the local read both succeed, the Sync Action is invoked in exactly those
cycles whose identifier pair is unequal, whatever the starting state. -/
theorem pull_iff_divergent (ci : Nat) (st : LoopState)
    (script : List (CommitId × CommitId × Nat)) :
    (runLoop ci st (script.map fun p => okInput p.1 p.2.1 p.2.2)).map
        (fun x => x.1.map CycleOutput.pulled)
      = Except.ok (script.map fun p => decide (p.1 ≠ p.2.1)) := by
  induction script generalizing st with
  | nil => rfl
  | cons p rest ih =>
    by_cases h : p.1 = p.2.1
    · have ihst := ih st
      simp only [List.map_cons, runLoop, cycleStep_okInput, if_pos h]
      rcases hr : runLoop ci st (rest.map fun p => okInput p.1 p.2.1 p.2.2)
        with e | pr
      · rw [hr] at ihst; simp [Except.map] at ihst
      · obtain ⟨outs, final⟩ := pr
        rw [hr] at ihst
        simp only [Except.map, Except.ok.injEq] at ihst
        rw [hr]
        simp [Except.map, ihst, h]
    · have ihst := ih ⟨p.2.2, 0⟩
      simp only [List.map_cons, runLoop, cycleStep_okInput, if_neg h]
      rcases hr : runLoop ci ⟨p.2.2, 0⟩ (rest.map fun p => okInput p.1 p.2.1 p.2.2)
        with e | pr
      · rw [hr] at ihst; simp [Except.map] at ihst
      · obtain ⟨outs, final⟩ := pr
        rw [hr] at ihst
        simp only [Except.map, Except.ok.injEq] at ihst
        rw [hr]
        simp [Except.map, ihst, h]

/-- C2: for every attempt count n in [0, 10] the backoff policy returns
exactly min(2 ^ n, 64) seconds, is monotonically non-decreasing in n, and is
deterministic. -/
theorem backoff_policy_spec (n : Nat) (h : n ≤ 10) :
    exponential_backoff n = min (2 ^ n) 64 ∧
    (∀ m, m ≤ n → exponential_backoff m ≤ exponential_backoff n) ∧
    (∀ m, m = n → exponential_backoff m = exponential_backoff n) := by
  refine ⟨exponential_backoff_eq_min n, fun m hm => ?_, fun m hm => by rw [hm]⟩
  rw [exponential_backoff_eq, exponential_backoff_eq]
  exact Nat.pow_le_pow_right (by norm_num) (min_le_min hm (le_refl 6))

theorem backoff_policy_spec_witness :
    (3 : Nat) ≤ 10 ∧
    (exponential_backoff 3 = min (2 ^ 3) 64 ∧
     (∀ m, m ≤ 3 → exponential_backoff m ≤ exponential_backoff 3) ∧
     (∀ m, m = 3 → exponential_backoff m = exponential_backoff 3)) :=
  ⟨by decide, backoff_policy_spec 3 (by decide)⟩

/-- C3 counterexample: a successful cycle (fetch and read both succeed) with
equal identifiers, starting with backoff_attempt = 1, hands backoff_attempt
= 1 (not 0) to the next cycle: the counter is only reset on the divergent
branch (src/main.rs line 197). -/
theorem backoff_not_reset_on_equal_cycle :
    ((cycleStep 5 ⟨0, 1⟩ (okInput "a" "a" 7)).map
        fun o => o.state.backoff_attempt)
      = Except.ok 1 ∧ (1 : Nat) ≠ 0 :=
  ⟨rfl, by decide⟩

/-- C3 amended: after a successful cycle the backoff_attempt counter is 0
at the start of the next cycle when the identifiers differed (the pull
branch resets it); when they were equal the counter is left unchanged. -/
theorem backoff_reset_only_on_divergence (ci : Nat) (st : LoopState)
    (r l : CommitId) (t : Nat) :
    ((cycleStep ci st (okInput r l t)).map fun o => o.state.backoff_attempt)
      = Except.ok (if r = l then st.backoff_attempt else 0) := by
  by_cases h : r = l <;> simp [cycleStep_okInput, h, Except.map]

/-- C4: on every cycle whose fetched remote and local identifiers differ,
the loop invokes the Sync Action, sets last_change_time to the cycle's
timestamp and resets the attempt counter to 0, whatever the prior state. -/
theorem divergent_cycle_pulls (ci : Nat) (st : LoopState) (r l : CommitId)
    (t : Nat) (h : r ≠ l) :
    cycleStep ci st (okInput r l t) = Except.ok ⟨⟨t, 0⟩, true, ci, false⟩ := by
  simp [cycleStep_okInput, h]

theorem divergent_cycle_pulls_witness :
    ("b" : String) ≠ "a" ∧
    cycleStep 3 ⟨9, 5⟩ (okInput "b" "a" 11) = Except.ok ⟨⟨11, 0⟩, true, 3, false⟩ :=
  ⟨by decide, divergent_cycle_pulls 3 ⟨9, 5⟩ "b" "a" 11 (by decide)⟩

/-- C5 counterexample: three consecutive remote-fetch failures from attempt
0 do sleep 1s, 2s, 4s, but a fourth cycle whose fetch succeeds with equal
identifiers leaves the attempt counter at 3, not 0: a successful fetch
alone does not reset it. -/
theorem fetch_recovery_no_reset :
    ((runLoop 5 ⟨0, 0⟩
        [fetchFailInput, fetchFailInput, fetchFailInput, okInput "a" "a" 9]).map
        fun x => (x.1.map CycleOutput.sleepSecs, x.2.backoff_attempt))
      = Except.ok ([1, 2, 4, 5], 3) ∧ (3 : Nat) ≠ 0 :=
  ⟨rfl, by decide⟩

/-- C5 amended: whenever the remote fetch fails the cycle logs an error,
sleeps exponential_backoff(attempt) seconds, increments the attempt counter
and continues; three consecutive fetch failures from attempt 0 sleep 1s,
2s, 4s, and the successful fourth cycle resets the counter to 0 only if
its identifiers differ (the pull branch) — with equal identifiers the
counter stays at 3. -/
theorem fetch_failure_backoff (ci : Nat) (st : LoopState) (inp : CycleInput)
    (t t2 : Nat) (r l : CommitId)
    (h1 : inp.openOk = true) (h2 : inp.remote = none) :
    cycleStep ci st inp
      = Except.ok ⟨⟨st.last_change_time, st.backoff_attempt + 1⟩, false,
          exponential_backoff st.backoff_attempt, true⟩ ∧
    ((runLoop ci ⟨t, 0⟩
        [fetchFailInput, fetchFailInput, fetchFailInput, okInput r l t2]).map
        fun x => (x.1.map CycleOutput.sleepSecs, x.2.backoff_attempt))
      = Except.ok ([1, 2, 4, ci], if r = l then 3 else 0) := by
  constructor
  · simp [cycleStep, h1, h2]
  · by_cases h : r = l <;>
      simp [runLoop, cycleStep, fetchFailInput, okInput, h,
        exponential_backoff_eq, Except.map]

theorem fetch_failure_backoff_witness :
    fetchFailInput.openOk = true ∧ fetchFailInput.remote = none ∧
    (cycleStep 7 ⟨2, 4⟩ fetchFailInput
      = Except.ok ⟨⟨2, 5⟩, false, exponential_backoff 4, true⟩ ∧
    ((runLoop 7 ⟨0, 0⟩
        [fetchFailInput, fetchFailInput, fetchFailInput, okInput "x" "y" 8]).map
        fun x => (x.1.map CycleOutput.sleepSecs, x.2.backoff_attempt))
      = Except.ok ([1, 2, 4, 7], if "x" = "y" then 3 else 0)) :=
  ⟨rfl, rfl,
    fetch_failure_backoff 7 ⟨2, 4⟩ fetchFailInput 0 8 "x" "y" rfl rfl⟩

/-- C6: whenever opening the local repository fails, the cycle logs an
error, sleeps the full configured poll interval (not a backoff delay),
leaves the whole loop state — attempt counter included — unchanged, does
not crash, and the loop continues with the next cycle. -/
theorem open_failure_full_interval (ci : Nat) (st : LoopState)
    (inp : CycleInput) (rest : List CycleInput) (h : inp.openOk = false) :
    cycleStep ci st inp = Except.ok ⟨st, false, ci, true⟩ ∧
    runLoop ci st (inp :: rest)
      = (runLoop ci st rest).map
          fun x => (⟨st, false, ci, true⟩ :: x.1, x.2) := by
  have hstep : cycleStep ci st inp = Except.ok ⟨st, false, ci, true⟩ := by
    simp [cycleStep, h]
  refine ⟨hstep, ?_⟩
  rw [runLoop, hstep]
  rcases hr : runLoop ci st rest with e | pr
  · simp [hr, Except.map]
  · obtain ⟨outs, final⟩ := pr
    simp [hr, Except.map]

theorem open_failure_full_interval_witness :
    (⟨false, some "a", some "a", 0, true, true, true⟩ : CycleInput).openOk
        = false ∧
    (cycleStep 9 ⟨1, 2⟩ ⟨false, some "a", some "a", 0, true, true, true⟩
        = Except.ok ⟨⟨1, 2⟩, false, 9, true⟩ ∧
      runLoop 9 ⟨1, 2⟩ [⟨false, some "a", some "a", 0, true, true, true⟩]
        = (runLoop 9 ⟨1, 2⟩ []).map
            fun x => (⟨⟨1, 2⟩, false, 9, true⟩ :: x.1, x.2)) :=
  ⟨rfl, open_failure_full_interval 9 ⟨1, 2⟩ _ [] rfl⟩

/-- C7 counterexample: a cycle on the no-change branch in which computing
the elapsed time fails (the system clock moved backwards) propagates an
error out of the loop body — the `?` on src/main.rs line 199 — and a
scripted run stops there instead of continuing to the next cycle. -/
theorem loop_error_escapes :
    cycleStep 5 ⟨0, 0⟩ ⟨true, some "a", some "a", 7, false, true, true⟩
      = Except.error () ∧
    runLoop 5 ⟨0, 0⟩ [⟨true, some "a", some "a", 7, false, true, true⟩,
        okInput "a" "b" 9] = Except.error () :=
  ⟨rfl, rfl⟩

/-- C7 amended: every open, fetch, read and pull failure is caught at the
cycle boundary and the loop continues; the only conditions the loop body
propagates (terminating the loop) arise on the no-change branch, when
computing the elapsed time or flushing stdout fails. -/
theorem per_cycle_error_boundary (ci : Nat) (st : LoopState)
    (inp : CycleInput) :
    cycleStep ci st inp = Except.error () ↔
      inp.openOk = true ∧
      (∃ s, inp.remote = some s ∧ inp.localCommit = some s) ∧
      (inp.elapsedOk = false ∨ inp.flushOk = false) := by
  rcases inp with ⟨o, rem, loc, n, eo, fo, po⟩
  cases o <;> cases rem <;> cases loc <;> simp [cycleStep]
  case true.some.some r l =>
    rcases eq_or_ne r l with h | h
    · subst h
      cases eo <;> cases fo <;> simp
    · cases eo <;> cases fo <;> simp [h, Ne.symm h]

/-- C8 counterexample: a response with a non-2xx status (404) whose body
nevertheless carries a valid `sha` field makes the fetcher return that
identifier instead of failing: the code never inspects the status. -/
theorem non2xx_with_sha_returns_commit :
    get_latest_commit_sha
        (Except.ok ⟨404, Json.obj [("sha", Json.str "abc123")]⟩)
      = some "abc123" ∧ ¬ (200 ≤ 404 ∧ 404 ≤ 299) :=
  ⟨rfl, by decide⟩

/-- C8 amended: the fetcher is status-blind.  Given any delivered response,
of any status, it returns the identifier exactly when the body parses as a
JSON object with a string `sha` field; a malformed body or a missing `sha`
field yields no identifier, as does a network failure of the send. -/
theorem fetcher_status_blind (status : Nat) (body : Json) (s : CommitId) :
    (parseGitHubCommit body = some s →
      get_latest_commit_sha (Except.ok ⟨status, body⟩) = some s) ∧
    (parseGitHubCommit body = none →
      get_latest_commit_sha (Except.ok ⟨status, body⟩) = none) ∧
    get_latest_commit_sha (Except.error ()) = none := by
  refine ⟨fun h => ?_, fun h => ?_, rfl⟩ <;> simp [get_latest_commit_sha, h]

theorem fetcher_status_blind_witness :
    (parseGitHubCommit (Json.obj [("sha", Json.str "abc")]) = some "abc" ∧
      get_latest_commit_sha
          (Except.ok ⟨500, Json.obj [("sha", Json.str "abc")]⟩)
        = some "abc") ∧
    (parseGitHubCommit (Json.num 3) = none ∧
      get_latest_commit_sha (Except.ok ⟨200, Json.num 3⟩) = none) :=
  ⟨⟨rfl, (fetcher_status_blind 500 (Json.obj [("sha", Json.str "abc")]) "abc").1 rfl⟩,
    ⟨rfl, (fetcher_status_blind 200 (Json.num 3) "x").2.1 rfl⟩⟩

/-- C9: on the no-change branch (remote and local identifiers equal, the
status line printed without incident) the cycle hands the very same state —
both last_change_time and backoff_attempt — to the next cycle. -/
theorem no_change_frame (ci : Nat) (st : LoopState) (inp : CycleInput)
    (s : CommitId) (h1 : inp.openOk = true) (h2 : inp.remote = some s)
    (h3 : inp.localCommit = some s) (h4 : inp.elapsedOk = true)
    (h5 : inp.flushOk = true) :
    (cycleStep ci st inp).map CycleOutput.state = Except.ok st := by
  simp [cycleStep, h1, h2, h3, h4, h5, Except.map]

theorem no_change_frame_witness :
    (okInput "a" "a" 3).openOk = true ∧
    (cycleStep 5 ⟨2, 4⟩ (okInput "a" "a" 3)).map CycleOutput.state
      = Except.ok ⟨2, 4⟩ :=
  ⟨rfl, no_change_frame 5 ⟨2, 4⟩ (okInput "a" "a" 3) "a" rfl rfl rfl rfl rfl⟩

/-- C10: for every attempt count representable as a u32 — including values
far above 10 — the backoff computation equals 2 ^ min(n, 6) seconds, never
exceeds 64 seconds, and the u64 exponentiation never overflows. -/
theorem backoff_bounded_no_overflow (n : Nat) (h : n < 2 ^ 32) :
    exponential_backoff n = 2 ^ min n 6 ∧
    exponential_backoff n ≤ 64 ∧ 2 ^ min n 6 < 2 ^ 64 := by
  have hb : 2 ^ min n 6 ≤ 64 := by
    calc 2 ^ min n 6 ≤ 2 ^ 6 :=
      Nat.pow_le_pow_right (by norm_num) (Nat.min_le_right _ _)
    _ = 64 := by norm_num
  exact ⟨exponential_backoff_eq n, by rw [exponential_backoff_eq n]; exact hb,
    lt_of_le_of_lt hb (by norm_num)⟩

theorem backoff_bounded_no_overflow_witness :
    (4294967295 : Nat) < 2 ^ 32 ∧
    (exponential_backoff 4294967295 = 2 ^ min 4294967295 6 ∧
     exponential_backoff 4294967295 ≤ 64 ∧ 2 ^ min 4294967295 6 < 2 ^ 64) :=
  ⟨by norm_num, backoff_bounded_no_overflow 4294967295 (by norm_num)⟩
